import Mathlib

/-!
# Counter exchange over libp2p streams (`src/main.go`)

A shallow embedding of the first-party code of the demo: `main`, `connectToPeer`,
`writeCounter`, `readCounter` and `discoveryNotifee.HandlePeerFound`.

Modelling conventions.

* The libp2p host (`host.Host`) and a stream (`network.Stream`) are Go interface values.
  They are embedded as records of their methods.  A method whose answer depends on the
  state of the network takes an extra `Nat`: for a host the logical time of the call, for a
  stream the number of earlier calls of that method by the goroutine that owns the loop.
  The answers are arbitrary functions, so every behaviour of the network, and of goroutines
  running concurrently, is covered.
* A function body is embedded as the list of the observable steps it performs (`Event`),
  together with how it ended (`Status`).  `go f(s)` is an event: the started goroutine is a
  separate run of `f`.
* The two `for` loops have no exit but `return`; they are run for a bounded number of
  iterations (`fuel`), and a run that used up its iterations has status `running`.
* `uint64` is `Nat` with an explicit `% 2 ^ 64`; a byte is a `Nat` below `256`.
-/

namespace P2PCounter

/-! ## Data model -/

/-- Identity of a peer (`peer.ID`). -/
abbrev PeerID := Nat

/-- A multiaddress (`multiaddr.Multiaddr`), kept in its textual form. -/
abbrev Multiaddr := String

/-- A Go `error` value that is not `nil`. -/
abbrev Error := String

/-- The constant `protocolID`. -/
def protocolID : String := "/example/1.0.0"

/-- The constant `discoveryNamespace`. -/
def discoveryNamespace : String := "example"

/-- Address and identity of a peer (`peer.AddrInfo`). -/
structure AddrInfo where
  ID : PeerID
  Addrs : List Multiaddr
deriving DecidableEq, Repr

/-- The connection under a stream (`network.Conn`), as far as the program uses it. -/
structure NetConn where
  RemotePeer : PeerID
  RemoteMultiaddr : Multiaddr
deriving DecidableEq, Repr

/-- A stream (`network.Stream`).  `Write i bs` is the error returned by the `i`-th call
(counted from `0`) of `s.Write(bs)`; `ReadFull i` is the outcome of the `i`-th
`io.ReadFull` of an 8-byte buffer from the stream. -/
structure Stream where
  ID : String
  Conn : NetConn
  Write : Nat → List Nat → Option Error
  ReadFull : Nat → Except Error (List Nat)

/-- The libp2p host (`host.Host`), the global `node`.  `Connect t` and `NewStream t` are the
answers of the network at logical time `t`. -/
structure Host where
  ID : PeerID
  Addrs : List Multiaddr
  Connect : Nat → AddrInfo → Option Error
  NewStream : Nat → PeerID → String → Except Error Stream

/-- The lines the program prints, by content. -/
inductive Msg where
  | addresses (addrs : List Multiaddr)
  | nodeID (id : PeerID)
  | fullMultiAddr (addr : Multiaddr) (id : PeerID)
  | foundPeer (info : AddrInfo)
  | connectedTo (info : AddrInfo)
  | errorWriting (stream : String) (err : Error)
  | tryingToReconnect (info : AddrInfo)
  | errorReading (stream : String) (err : Error)
  | received (counter : Nat) (stream : String)

/-- The observable steps of the program. -/
inductive Event where
  | print (m : Msg)
  /-- Entry into `connectToPeer(peerAddrInfo)`. -/
  | connectToPeer (peerAddrInfo : AddrInfo)
  /-- Call of `node.Connect(ctx, peerAddrInfo)` and the error it returned. -/
  | Connect (peerAddrInfo : AddrInfo) (err : Option Error)
  /-- Call of `node.NewStream(ctx, id, proto)` and what it returned. -/
  | NewStream (id : PeerID) (proto : String) (res : Except Error Stream)
  /-- Statement `go writeCounter(s)`. -/
  | goWriteCounter (s : Stream)
  /-- Statement `go readCounter(s)`. -/
  | goReadCounter (s : Stream)
  /-- Receive from `time.After(time.Second)`. -/
  | sleep
  /-- Call of `binary.Write(s, binary.BigEndian, data)`: the value, the buffer handed to
  `s.Write` and the error returned. -/
  | binaryWrite (s : Stream) (data : Nat) (bs : List Nat) (err : Option Error)
  /-- Call of `binary.Read(s, binary.BigEndian, &counter)`: the error, or the value stored in
  `counter`. -/
  | binaryRead (s : Stream) (res : Except Error Nat)
  | SetStreamHandler (proto : String)
  | NewMdnsService (ns : String)
  | RegisterNotifee
  | closeDiscoveryService
  | closeNode
  /-- Receive from `sigCh`, on which `main` blocks. -/
  | awaitSignal

/-- How a run of a function body ended. -/
inductive Status where
  /-- Still inside its loop when the iterations ran out, or blocked on a channel. -/
  | running
  | returned
  | panicked (err : Error)
deriving DecidableEq, Repr

/-- A run of a function body: its steps in order and how it ended. -/
structure Run where
  trace : List Event
  status : Status

/-- The run `r` preceded by the steps `pre`. -/
def Run.prepend (pre : List Event) (r : Run) : Run :=
  ⟨pre ++ r.trace, r.status⟩

/-! ## `encoding/binary`, big endian -/

/-- Modelled from the spec: `binary.BigEndian.PutUint64` of Go's standard library, which is
not part of the repository; the spec says "serialize it as 8 bytes big-endian".  Byte `j`
is `byte(v >> (56 - 8 * j))`. -/
def PutUint64 (v : Nat) : List Nat :=
  [(v >>> 56) % 256, (v >>> 48) % 256, (v >>> 40) % 256, (v >>> 32) % 256,
   (v >>> 24) % 256, (v >>> 16) % 256, (v >>> 8) % 256, v % 256]

/-- Modelled from the spec: `binary.BigEndian.Uint64` of Go's standard library, which is not
part of the repository; the spec says "read exactly 8 bytes from the stream, interpret as a
big-endian unsigned 64-bit integer".  The bytes are combined as
`b[7] | b[6]<<8 | ... | b[0]<<56`. -/
def Uint64 (b : List Nat) : Nat :=
  b.getD 7 0 ||| b.getD 6 0 <<< 8 ||| b.getD 5 0 <<< 16 ||| b.getD 4 0 <<< 24 |||
    b.getD 3 0 <<< 32 ||| b.getD 2 0 <<< 40 ||| b.getD 1 0 <<< 48 ||| b.getD 0 0 <<< 56

/-- Modelled from the spec: `io.ReadFull` of an 8-byte buffer, `i` earlier reads having been
served, on a stream that delivers the bytes `inbound` and is then closed: the next 8 bytes,
`EOF` when none is left, `unexpected EOF` when fewer than 8 are left. -/
def readFullOf (inbound : List Nat) (i : Nat) : Except Error (List Nat) :=
  let rest := inbound.drop (8 * i)
  if 8 ≤ rest.length then .ok (rest.take 8)
  else if rest.length = 0 then .error "EOF"
  else .error "unexpected EOF"

/-! ## The program -/

/-- Function `connectToPeer` (lines 94-111), called at logical time `t`: the returned error
(`none` for `nil`) and the steps performed. -/
def connectToPeer (node : Host) (t : Nat) (peerAddrInfo : AddrInfo) : Option Error × List Event :=
  match node.Connect t peerAddrInfo with
  | some err => (some err, [.connectToPeer peerAddrInfo, .Connect peerAddrInfo (some err)])
  | none =>
    match node.NewStream t peerAddrInfo.ID protocolID with
    | .error err =>
      (some err,
        [.connectToPeer peerAddrInfo, .Connect peerAddrInfo none,
         .print (.connectedTo peerAddrInfo),
         .NewStream peerAddrInfo.ID protocolID (.error err)])
    | .ok s =>
      (none,
        [.connectToPeer peerAddrInfo, .Connect peerAddrInfo none,
         .print (.connectedTo peerAddrInfo),
         .NewStream peerAddrInfo.ID protocolID (.ok s),
         .goWriteCounter s, .goReadCounter s])

/-- Call `binary.Write(s, binary.BigEndian, v)` with `v` a `uint64`, the `i`-th write on the
stream: the 8-byte buffer it fills and hands to `s.Write`, and the error it returns. -/
def binaryWrite (s : Stream) (i : Nat) (v : Nat) : List Nat × Option Error :=
  let bs := PutUint64 v
  (bs, s.Write i bs)

/-- Call `binary.Read(s, binary.BigEndian, &counter)` with `counter` a `uint64`, the `i`-th
read on the stream: the error of `io.ReadFull`, or the decoded value. -/
def binaryRead (s : Stream) (i : Nat) : Except Error Nat :=
  match s.ReadFull i with
  | .error err => .error err
  | .ok bs => .ok (Uint64 bs)

/-- The loop of `writeCounter` (lines 116-137): `fuel` bounds the iterations, `i` counts the
writes made so far, `counter` is the local variable.  The reconnect happens at time `t`. -/
def writeCounterLoop (node : Host) (t : Nat) (s : Stream) : Nat → Nat → Nat → Run
  | 0, _, _ => ⟨[], .running⟩
  | fuel + 1, i, counter =>
    let counter := (counter + 1) % 2 ^ 64
    let w := binaryWrite s i counter
    match w.2 with
    | none =>
      (writeCounterLoop node t s fuel (i + 1) counter).prepend
        [.sleep, .binaryWrite s counter w.1 none]
    | some err =>
      let peerAddr : AddrInfo := ⟨s.Conn.RemotePeer, [s.Conn.RemoteMultiaddr]⟩
      ⟨[.sleep, .binaryWrite s counter w.1 (some err),
        .print (.errorWriting s.ID err), .print (.tryingToReconnect peerAddr)]
        ++ (connectToPeer node t peerAddr).2, .returned⟩

/-- Function `writeCounter` (lines 113-138): `var counter uint64` starts at `0`. -/
def writeCounter (node : Host) (t : Nat) (s : Stream) (fuel : Nat) : Run :=
  writeCounterLoop node t s fuel 0 0

/-- The loop of `readCounter` (lines 141-152): `fuel` bounds the iterations, `i` counts the
reads made so far. -/
def readCounterLoop (s : Stream) : Nat → Nat → Run
  | 0, _ => ⟨[], .running⟩
  | fuel + 1, i =>
    match binaryRead s i with
    | .error err =>
      ⟨[.binaryRead s (.error err), .print (.errorReading s.ID err)], .returned⟩
    | .ok counter =>
      (readCounterLoop s fuel (i + 1)).prepend
        [.binaryRead s (.ok counter), .print (.received counter s.ID)]

/-- Function `readCounter` (lines 140-153). -/
def readCounter (s : Stream) (fuel : Nat) : Run :=
  readCounterLoop s fuel 0

/-- Type `discoveryNotifee` (lines 155-157). -/
structure discoveryNotifee where
  h : Host

/-- Method `HandlePeerFound` (lines 159-164), called at logical time `t`; `node` is the
global the callee `connectToPeer` uses. -/
def HandlePeerFound (node : Host) (t : Nat) (n : discoveryNotifee) (peerInfo : AddrInfo) : Run :=
  if peerInfo.ID ≠ n.h.ID then
    ⟨.print (.foundPeer peerInfo) :: (connectToPeer node t peerInfo).2, .returned⟩
  else
    ⟨[.print (.foundPeer peerInfo)], .returned⟩

/-- The discovery service delivering the notifications `infos` one after the other to
`HandlePeerFound`, the first at time `t`: the steps of all the calls. -/
def deliver (node : Host) (n : discoveryNotifee) : Nat → List AddrInfo → List Event
  | _, [] => []
  | t, info :: infos => (HandlePeerFound node t n info).trace ++ deliver node n (t + 1) infos

/-- The stream handler registered by `main` (lines 60-63). -/
def streamHandler (s : Stream) : List Event :=
  [.goWriteCounter s, .goReadCounter s]

/-- The library entry points `main` calls before it has a host. -/
structure Lib where
  /-- Outcome of `libp2p.New(...)`. -/
  New : Except Error Host
  /-- Function `multiaddr.NewMultiaddr`. -/
  NewMultiaddr : String → Except Error Multiaddr
  /-- Function `peer.AddrInfoFromP2pAddr`. -/
  AddrInfoFromP2pAddr : Multiaddr → Except Error AddrInfo

/-- The steps of `main` between the creation of the node and the test of the flag
(lines 50-72). -/
def mainSetup (node : Host) : List Event :=
  [.print (.addresses node.Addrs), .print (.nodeID node.ID)]
    ++ node.Addrs.map (fun multiAddr => .print (.fullMultiAddr multiAddr node.ID))
    ++ [.SetStreamHandler protocolID, .NewMdnsService discoveryNamespace, .RegisterNotifee]

/-- Function `main` (lines 26-92) with the flag `-peer-address` set to `peerAddr`, up to
the receive from `sigCh`.  A `panic` in `main` runs the two deferred `Close` calls. -/
def main (lib : Lib) (peerAddr : String) (t : Nat) : Run :=
  match lib.New with
  | .error err => ⟨[], .panicked err⟩
  | .ok node =>
    if peerAddr ≠ "" then
      match lib.NewMultiaddr peerAddr with
      | .error err =>
        ⟨mainSetup node ++ [.closeDiscoveryService, .closeNode], .panicked err⟩
      | .ok peerMA =>
        match lib.AddrInfoFromP2pAddr peerMA with
        | .error err =>
          ⟨mainSetup node ++ [.closeDiscoveryService, .closeNode], .panicked err⟩
        | .ok peerAddrInfo =>
          ⟨mainSetup node ++ (connectToPeer node t peerAddrInfo).2 ++ [.awaitSignal], .running⟩
    else
      ⟨mainSetup node ++ [.awaitSignal], .running⟩

/-! ## Observations on a trace -/

/-- The arguments of the calls of `connectToPeer`, in order. -/
def connectToPeerCalls (tr : List Event) : List AddrInfo :=
  tr.filterMap fun e => match e with
    | .connectToPeer info => some info
    | _ => none

/-- The arguments of the calls of `node.Connect`, in order. -/
def connectCalls (tr : List Event) : List AddrInfo :=
  tr.filterMap fun e => match e with
    | .Connect info _ => some info
    | _ => none

/-- The peers of the calls of `node.NewStream`, in order. -/
def newStreamCalls (tr : List Event) : List PeerID :=
  tr.filterMap fun e => match e with
    | .NewStream id _ _ => some id
    | _ => none

/-- The peers to which a stream was opened (`node.NewStream` returned no error), in order. -/
def streamsOpened (tr : List Event) : List PeerID :=
  tr.filterMap fun e => match e with
    | .NewStream id _ (.ok _) => some id
    | _ => none

/-- The streams of the outbound loops started (`go writeCounter(s)`), in order. -/
def writersStarted (tr : List Event) : List Stream :=
  tr.filterMap fun e => match e with
    | .goWriteCounter s => some s
    | _ => none

/-- The streams of the inbound loops started (`go readCounter(s)`), in order. -/
def readersStarted (tr : List Event) : List Stream :=
  tr.filterMap fun e => match e with
    | .goReadCounter s => some s
    | _ => none

/-- The values handed to `binary.Write`, in order. -/
def valuesWritten (tr : List Event) : List Nat :=
  tr.filterMap fun e => match e with
    | .binaryWrite _ v _ _ => some v
    | _ => none

/-- The values whose write returned no error, in order. -/
def valuesSent (tr : List Event) : List Nat :=
  tr.filterMap fun e => match e with
    | .binaryWrite _ v _ none => some v
    | _ => none

/-- The bytes put on the stream: the buffers of the `Write` calls that returned no error,
one after the other. -/
def wireBytes (tr : List Event) : List Nat :=
  (tr.filterMap fun e => match e with
    | .binaryWrite _ _ bs none => some bs
    | _ => none).flatten

/-- The values reported by `Received %d from %s`, in order. -/
def valuesReported (tr : List Event) : List Nat :=
  tr.filterMap fun e => match e with
    | .print (.received v _) => some v
    | _ => none

/-- The number of read errors reported. -/
def readErrorsReported (tr : List Event) : Nat :=
  (tr.filterMap fun e => match e with
    | .print (.errorReading _ err) => some err
    | _ => none).length

/-- The errors returned by the calls of `node.Connect`, in order. -/
def connectErrors (tr : List Event) : List Error :=
  tr.filterMap fun e => match e with
    | .Connect _ (some err) => some err
    | _ => none

/-- The errors returned by the calls of `node.NewStream`, in order. -/
def newStreamErrors (tr : List Event) : List Error :=
  tr.filterMap fun e => match e with
    | .NewStream _ _ (.error err) => some err
    | _ => none

/-- The peer `writeCounter` reconnects to: the remote end of the stream. -/
def reconnectTarget (s : Stream) : AddrInfo :=
  ⟨s.Conn.RemotePeer, [s.Conn.RemoteMultiaddr]⟩

/-- Every `Connect` and every `NewStream` of the host succeeds. -/
def Succeeds (node : Host) : Prop :=
  (∀ t info, node.Connect t info = none) ∧
  (∀ t id, ∃ s, node.NewStream t id protocolID = .ok s)

/-! ## Concrete networks -/

/-- A stream on which nothing fails: every write succeeds and the inbound bytes are
`inbound`, followed by the end of the stream. -/
def streamOf (id : String) (remote : NetConn) (inbound : List Nat) : Stream :=
  ⟨id, remote, fun _ _ => none, readFullOf inbound⟩

/-- A stream to `peer` on which nothing fails and nothing arrives. -/
def quietStream (id : String) (peer : PeerID) : Stream :=
  streamOf id ⟨peer, "/ip4/127.0.0.1/tcp/4001"⟩ []

/-- A stream to `peer` on which write number `k` (counted from `0`) fails and the others
succeed. -/
def flakyStream (k : Nat) (peer : PeerID) : Stream :=
  ⟨"flaky", ⟨peer, "/ip4/127.0.0.1/tcp/4001"⟩,
    fun i _ => if i = k then some "stream reset" else none, readFullOf []⟩

/-- A host with identity `1` for which every `Connect` and every `NewStream` succeeds; the
stream opened at time `t` is named after `t`. -/
def upHost : Host :=
  ⟨1, ["/ip4/127.0.0.1/tcp/4000"], fun _ _ => none,
    fun t id _ => .ok (quietStream ("up-" ++ toString t) id)⟩

/-- A host with identity `1` for which every `Connect` fails. -/
def downHost : Host :=
  ⟨1, ["/ip4/127.0.0.1/tcp/4000"], fun _ _ => some "connection refused",
    fun _ _ _ => .error "no connection"⟩

/-- A library whose `libp2p.New` returns `upHost`, whose `NewMultiaddr` rejects a string
that does not begin with a slash, and whose `AddrInfoFromP2pAddr` accepts one address of
peer `2`. -/
def exampleLib : Lib :=
  ⟨.ok upHost,
    fun a => if a.data.head? = some '/' then .ok a else .error "must begin with /",
    fun ma =>
      if ma = "/ip4/127.0.0.1/tcp/4001/p2p/2" then .ok ⟨2, ["/ip4/127.0.0.1/tcp/4001"]⟩
      else .error "invalid p2p multiaddr"⟩

/-! ## Big-endian encoding -/

/-- Or-ing a value below `2 ^ k` with a value shifted left by `k` adds them. -/
theorem lor_shiftLeft_eq_add (a b k : Nat) (h : b < 2 ^ k) : b ||| a <<< k = a * 2 ^ k + b := by
  rw [Nat.shiftLeft_eq, Nat.lor_comm, Nat.mul_comm, ← Nat.mul_add_lt_is_or h]

/-- On eight bytes, `Uint64` is the base-256 number with the first byte most significant. -/
theorem Uint64_eq_sum (b0 b1 b2 b3 b4 b5 b6 b7 : Nat)
    (h1 : b1 < 256) (h2 : b2 < 256) (h3 : b3 < 256)
    (h4 : b4 < 256) (h5 : b5 < 256) (h6 : b6 < 256) (h7 : b7 < 256) :
    Uint64 [b0, b1, b2, b3, b4, b5, b6, b7] =
      b0 * 256 ^ 7 + b1 * 256 ^ 6 + b2 * 256 ^ 5 + b3 * 256 ^ 4 + b4 * 256 ^ 3 +
        b5 * 256 ^ 2 + b6 * 256 ^ 1 + b7 * 256 ^ 0 := by
  simp only [Uint64, List.getD_cons_zero, List.getD_cons_succ]
  rw [lor_shiftLeft_eq_add b6 b7 8 (by omega),
    lor_shiftLeft_eq_add b5 _ 16 (by omega),
    lor_shiftLeft_eq_add b4 _ 24 (by omega),
    lor_shiftLeft_eq_add b3 _ 32 (by omega),
    lor_shiftLeft_eq_add b2 _ 40 (by omega),
    lor_shiftLeft_eq_add b1 _ 48 (by omega),
    lor_shiftLeft_eq_add b0 _ 56 (by omega)]
  omega

/-- Every byte of `PutUint64 v` is below `256`. -/
theorem PutUint64_lt (v b : Nat) (h : b ∈ PutUint64 v) : b < 256 := by
  simp only [PutUint64, List.mem_cons, List.mem_singleton, List.not_mem_nil, or_false] at h
  rcases h with h | h | h | h | h | h | h | h <;> subst h <;> exact Nat.mod_lt _ (by decide)

/-- Decoding the encoding of a 64-bit value gives the value back. -/
theorem Uint64_PutUint64 (v : Nat) (hv : v < 2 ^ 64) : Uint64 (PutUint64 v) = v := by
  unfold PutUint64
  rw [Uint64_eq_sum _ _ _ _ _ _ _ _ (Nat.mod_lt _ (by decide))
    (Nat.mod_lt _ (by decide)) (Nat.mod_lt _ (by decide)) (Nat.mod_lt _ (by decide))
    (Nat.mod_lt _ (by decide)) (Nat.mod_lt _ (by decide)) (Nat.mod_lt _ (by decide))]
  simp only [Nat.shiftRight_eq_div_pow]
  norm_num at hv ⊢
  omega

/-! ## C1: serialization round trip -/

/-- C1: for every 64-bit value `v`, the buffer `binary.Write` fills for `v` has 8 bytes, and
a `binary.Read` whose 8 bytes are that buffer returns `v` and no error. -/
theorem binaryRead_binaryWrite (v : Nat) (hv : v < 2 ^ 64) (w r : Stream) (i j : Nat)
    (h : r.ReadFull j = .ok (binaryWrite w i v).1) :
    (binaryWrite w i v).1.length = 8 ∧ binaryRead r j = .ok v := by
  refine ⟨rfl, ?_⟩
  simp only [binaryWrite] at h
  simp only [binaryRead, h, Uint64_PutUint64 v hv]

/-- C1 at `v = 2 ^ 64 - 1`, read back from a stream that carries the written buffer. -/
theorem binaryRead_binaryWrite_witness :
    2 ^ 64 - 1 < 2 ^ 64 ∧
    (streamOf "r" ⟨1, "/ip4/127.0.0.1/tcp/4002"⟩ (PutUint64 (2 ^ 64 - 1))).ReadFull 0
      = .ok (binaryWrite (streamOf "w" ⟨2, "/ip4/127.0.0.1/tcp/4001"⟩ []) 0 (2 ^ 64 - 1)).1 ∧
    (binaryWrite (streamOf "w" ⟨2, "/ip4/127.0.0.1/tcp/4001"⟩ []) 0 (2 ^ 64 - 1)).1.length = 8 ∧
      binaryRead (streamOf "r" ⟨1, "/ip4/127.0.0.1/tcp/4002"⟩ (PutUint64 (2 ^ 64 - 1))) 0
        = .ok (2 ^ 64 - 1) :=
  ⟨by decide, rfl, binaryRead_binaryWrite (2 ^ 64 - 1) (by decide)
    (streamOf "w" ⟨2, "/ip4/127.0.0.1/tcp/4001"⟩ [])
    (streamOf "r" ⟨1, "/ip4/127.0.0.1/tcp/4002"⟩ (PutUint64 (2 ^ 64 - 1))) 0 0 rfl⟩

/-! ## C6: the result of `connectToPeer` -/

/-- C6: `connectToPeer` calls `node.Connect` exactly once and `node.NewStream` at most once;
it returns an error exactly when one of the calls it made returned one (and then that
error); when `Connect` fails `NewStream` is not called; on an error no loop is started; and
when both calls succeed it returns `nil` having started one `writeCounter` and one
`readCounter`, both on the stream `NewStream` returned. -/
theorem connectToPeer_result (node : Host) (t : Nat) (peerAddrInfo : AddrInfo) :
    (connectCalls (connectToPeer node t peerAddrInfo).2 = [peerAddrInfo]) ∧
    ((newStreamCalls (connectToPeer node t peerAddrInfo).2).length ≤ 1) ∧
    ((connectToPeer node t peerAddrInfo).1 ≠ none ↔
      (connectErrors (connectToPeer node t peerAddrInfo).2 ≠ [] ∨
        newStreamErrors (connectToPeer node t peerAddrInfo).2 ≠ [])) ∧
    (∀ err, node.Connect t peerAddrInfo = some err →
      (connectToPeer node t peerAddrInfo).1 = some err ∧
      connectErrors (connectToPeer node t peerAddrInfo).2 = [err] ∧
      newStreamCalls (connectToPeer node t peerAddrInfo).2 = []) ∧
    (∀ err, node.Connect t peerAddrInfo = none →
      node.NewStream t peerAddrInfo.ID protocolID = .error err →
      (connectToPeer node t peerAddrInfo).1 = some err ∧
      newStreamCalls (connectToPeer node t peerAddrInfo).2 = [peerAddrInfo.ID] ∧
      newStreamErrors (connectToPeer node t peerAddrInfo).2 = [err]) ∧
    ((connectToPeer node t peerAddrInfo).1 ≠ none →
      writersStarted (connectToPeer node t peerAddrInfo).2 = [] ∧
      readersStarted (connectToPeer node t peerAddrInfo).2 = []) ∧
    (∀ s, node.Connect t peerAddrInfo = none →
      node.NewStream t peerAddrInfo.ID protocolID = .ok s →
      (connectToPeer node t peerAddrInfo).1 = none ∧
      newStreamCalls (connectToPeer node t peerAddrInfo).2 = [peerAddrInfo.ID] ∧
      writersStarted (connectToPeer node t peerAddrInfo).2 = [s] ∧
      readersStarted (connectToPeer node t peerAddrInfo).2 = [s]) ∧
    ((connectToPeer node t peerAddrInfo).1 = none →
      ∃ s, node.NewStream t peerAddrInfo.ID protocolID = .ok s ∧
        writersStarted (connectToPeer node t peerAddrInfo).2 = [s] ∧
        readersStarted (connectToPeer node t peerAddrInfo).2 = [s]) := by
  unfold connectToPeer
  cases hc : node.Connect t peerAddrInfo with
  | some e =>
    simp [connectCalls, newStreamCalls, connectErrors, newStreamErrors, writersStarted,
      readersStarted]
  | none =>
    cases hs : node.NewStream t peerAddrInfo.ID protocolID with
    | error e =>
      simp [connectCalls, newStreamCalls, connectErrors, newStreamErrors, writersStarted,
        readersStarted]
    | ok s =>
      simp [connectCalls, newStreamCalls, connectErrors, newStreamErrors, writersStarted,
        readersStarted]

/-! ## C2: self-discovery -/

/-- C2: `HandlePeerFound` always returns; it does not call `connectToPeer` (nor
`node.Connect`) when the notified identity is the local one, and calls `connectToPeer`
exactly once, with the notified peer info, when it is not, whatever that call returns. -/
theorem HandlePeerFound_calls (node : Host) (t : Nat) (n : discoveryNotifee)
    (peerInfo : AddrInfo) :
    (HandlePeerFound node t n peerInfo).status = .returned ∧
    (peerInfo.ID = n.h.ID →
      connectToPeerCalls (HandlePeerFound node t n peerInfo).trace = [] ∧
      connectCalls (HandlePeerFound node t n peerInfo).trace = []) ∧
    (peerInfo.ID ≠ n.h.ID →
      connectToPeerCalls (HandlePeerFound node t n peerInfo).trace = [peerInfo] ∧
      (HandlePeerFound node t n peerInfo).trace
        = .print (.foundPeer peerInfo) :: (connectToPeer node t peerInfo).2) := by
  unfold HandlePeerFound
  by_cases h : peerInfo.ID = n.h.ID
  · simp [h, connectToPeerCalls, connectCalls]
  · simp only [ne_eq, h, not_false_eq_true, if_true, false_implies, true_implies, true_and]
    unfold connectToPeer
    cases node.Connect t peerInfo with
    | some e => simp [connectToPeerCalls]
    | none =>
      cases node.NewStream t peerInfo.ID protocolID with
      | error e => simp [connectToPeerCalls]
      | ok s => simp [connectToPeerCalls]

/-! ## The outbound loop, step by step -/

/-- An iteration whose write succeeds is followed by the rest of the loop. -/
theorem writeCounterLoop_ok (node : Host) (t : Nat) (s : Stream) (fuel i c : Nat)
    (h : s.Write i (PutUint64 ((c + 1) % 2 ^ 64)) = none) :
    writeCounterLoop node t s (fuel + 1) i c =
      (writeCounterLoop node t s fuel (i + 1) ((c + 1) % 2 ^ 64)).prepend
        [.sleep, .binaryWrite s ((c + 1) % 2 ^ 64) (PutUint64 ((c + 1) % 2 ^ 64)) none] := by
  simp only [writeCounterLoop, binaryWrite, h]

/-- An iteration whose write fails reconnects once and returns. -/
theorem writeCounterLoop_err (node : Host) (t : Nat) (s : Stream) (fuel i c : Nat) (err : Error)
    (h : s.Write i (PutUint64 ((c + 1) % 2 ^ 64)) = some err) :
    writeCounterLoop node t s (fuel + 1) i c =
      ⟨[.sleep, .binaryWrite s ((c + 1) % 2 ^ 64) (PutUint64 ((c + 1) % 2 ^ 64)) (some err),
        .print (.errorWriting s.ID err), .print (.tryingToReconnect (reconnectTarget s))]
        ++ (connectToPeer node t (reconnectTarget s)).2, .returned⟩ := by
  simp only [writeCounterLoop, binaryWrite, h, reconnectTarget]

/-- What `connectToPeer` contributes to the observations of a trace. -/
theorem connectToPeer_observed (node : Host) (t : Nat) (info : AddrInfo) :
    connectToPeerCalls (connectToPeer node t info).2 = [info] ∧
    connectCalls (connectToPeer node t info).2 = [info] ∧
    valuesWritten (connectToPeer node t info).2 = [] ∧
    valuesSent (connectToPeer node t info).2 = [] ∧
    wireBytes (connectToPeer node t info).2 = [] ∧
    ((connectToPeer node t info).1 ≠ none →
      newStreamCalls (connectToPeer node t info).2 ⊆ [info.ID] ∧
      writersStarted (connectToPeer node t info).2 = [] ∧
      readersStarted (connectToPeer node t info).2 = []) := by
  unfold connectToPeer
  cases node.Connect t info with
  | some e =>
    simp [connectToPeerCalls, connectCalls, valuesWritten, valuesSent, wireBytes,
      newStreamCalls, writersStarted, readersStarted]
  | none =>
    cases node.NewStream t info.ID protocolID with
    | error e =>
      simp [connectToPeerCalls, connectCalls, valuesWritten, valuesSent, wireBytes,
        newStreamCalls, writersStarted, readersStarted]
    | ok s =>
      simp [connectToPeerCalls, connectCalls, valuesWritten, valuesSent, wireBytes,
        newStreamCalls, writersStarted, readersStarted]

/-- The `j`-th value handed to `binary.Write` by a loop entered with counter `c` is
`c + j + 1` modulo `2 ^ 64`. -/
theorem valuesWritten_loop (node : Host) (t : Nat) (s : Stream) :
    ∀ (fuel i c j v : Nat),
      (valuesWritten (writeCounterLoop node t s fuel i c).trace)[j]? = some v →
      v = (c + j + 1) % 2 ^ 64 := by
  intro fuel
  induction fuel with
  | zero => intro i c j v h; simp [writeCounterLoop, valuesWritten] at h
  | succ fuel ih =>
    intro i c j v h
    cases hw : s.Write i (PutUint64 ((c + 1) % 2 ^ 64)) with
    | none =>
      rw [writeCounterLoop_ok node t s fuel i c hw] at h
      have hcons : valuesWritten ((writeCounterLoop node t s fuel (i + 1)
            ((c + 1) % 2 ^ 64)).prepend [.sleep, .binaryWrite s ((c + 1) % 2 ^ 64)
              (PutUint64 ((c + 1) % 2 ^ 64)) none]).trace
          = ((c + 1) % 2 ^ 64) ::
            valuesWritten (writeCounterLoop node t s fuel (i + 1) ((c + 1) % 2 ^ 64)).trace := by
        simp [Run.prepend, valuesWritten]
      rw [hcons] at h
      cases j with
      | zero => simp at h; omega
      | succ j =>
        simp only [List.getElem?_cons_succ] at h
        have := ih (i + 1) ((c + 1) % 2 ^ 64) j v h
        omega
    | some err =>
      rw [writeCounterLoop_err node t s fuel i c err hw] at h
      have hcons : valuesWritten ([.sleep, .binaryWrite s ((c + 1) % 2 ^ 64)
            (PutUint64 ((c + 1) % 2 ^ 64)) (some err), .print (.errorWriting s.ID err),
            .print (.tryingToReconnect (reconnectTarget s))]
            ++ (connectToPeer node t (reconnectTarget s)).2)
          = [(c + 1) % 2 ^ 64] := by
        have h0 := (connectToPeer_observed node t (reconnectTarget s)).2.2.1
        simp only [valuesWritten] at h0 ⊢
        simp [List.filterMap_append, h0]
      simp only [hcons] at h
      cases j with
      | zero => simp at h; omega
      | succ j => simp at h

/-- As long as the writes succeed and iterations are left, the loop goes on writing: when
the first `m` writes succeed and more than `m` iterations are run, there is a write number
`m` (counted from `0`). -/
theorem valuesWritten_loop_length (node : Host) (t : Nat) (s : Stream) :
    ∀ (m fuel i c : Nat),
      (∀ j, j < m → s.Write (i + j) (PutUint64 ((c + j + 1) % 2 ^ 64)) = none) →
      m < fuel →
      m < (valuesWritten (writeCounterLoop node t s fuel i c).trace).length := by
  intro m
  induction m with
  | zero =>
    intro fuel i c _ hf
    obtain ⟨fuel, rfl⟩ : ∃ f, fuel = f + 1 := ⟨fuel - 1, by omega⟩
    cases hw : s.Write i (PutUint64 ((c + 1) % 2 ^ 64)) with
    | none =>
      rw [writeCounterLoop_ok node t s fuel i c hw]
      simp [Run.prepend, valuesWritten]
    | some err =>
      rw [writeCounterLoop_err node t s fuel i c err hw]
      simp [valuesWritten]
  | succ m ih =>
    intro fuel i c hok hf
    obtain ⟨fuel, rfl⟩ : ∃ f, fuel = f + 1 := ⟨fuel - 1, by omega⟩
    have hw : s.Write i (PutUint64 ((c + 1) % 2 ^ 64)) = none := by
      have := hok 0 (by omega)
      simpa using this
    rw [writeCounterLoop_ok node t s fuel i c hw]
    have hrec := ih fuel (i + 1) ((c + 1) % 2 ^ 64) (by
      intro j hj
      have h1 := hok (j + 1) (by omega)
      have e1 : i + 1 + j = i + (j + 1) := by omega
      have e2 : ((c + 1) % 2 ^ 64 + j + 1) % 2 ^ 64 = (c + (j + 1) + 1) % 2 ^ 64 := by omega
      rw [e1, e2]; exact h1) (by omega)
    simp only [Run.prepend, valuesWritten] at hrec ⊢
    simp only [List.filterMap_append, List.length_append]
    simp only [List.filterMap_cons, List.filterMap_nil, List.length_cons, List.length_nil]
    omega

/-- When the first `k` writes succeed, write number `k` fails and more than `k` iterations
are run, the loop has returned, having made `k + 1` writes and, after them, one call of
`connectToPeer` for the remote end of the stream, to which it owes every loop it started. -/
theorem writeCounterLoop_fail (node : Host) (t : Nat) (s : Stream) (err : Error) :
    ∀ (k fuel i c : Nat),
      (∀ j, j < k → s.Write (i + j) (PutUint64 ((c + j + 1) % 2 ^ 64)) = none) →
      s.Write (i + k) (PutUint64 ((c + k + 1) % 2 ^ 64)) = some err →
      k < fuel →
      (writeCounterLoop node t s fuel i c).status = .returned ∧
      (valuesWritten (writeCounterLoop node t s fuel i c).trace).length = k + 1 ∧
      connectToPeerCalls (writeCounterLoop node t s fuel i c).trace = [reconnectTarget s] ∧
      connectCalls (writeCounterLoop node t s fuel i c).trace = [reconnectTarget s] ∧
      newStreamCalls (writeCounterLoop node t s fuel i c).trace
        = newStreamCalls (connectToPeer node t (reconnectTarget s)).2 ∧
      writersStarted (writeCounterLoop node t s fuel i c).trace
        = writersStarted (connectToPeer node t (reconnectTarget s)).2 ∧
      readersStarted (writeCounterLoop node t s fuel i c).trace
        = readersStarted (connectToPeer node t (reconnectTarget s)).2 := by
  intro k
  induction k with
  | zero =>
    intro fuel i c _ hfail hf
    obtain ⟨fuel, rfl⟩ : ∃ f, fuel = f + 1 := ⟨fuel - 1, by omega⟩
    have hw : s.Write i (PutUint64 ((c + 1) % 2 ^ 64)) = some err := by simpa using hfail
    rw [writeCounterLoop_err node t s fuel i c err hw]
    obtain ⟨h1, h2, h3, -⟩ := connectToPeer_observed node t (reconnectTarget s)
    simp only [valuesWritten, connectToPeerCalls, connectCalls] at h1 h2 h3
    simp [valuesWritten, connectToPeerCalls, connectCalls, newStreamCalls, writersStarted,
      readersStarted, List.filterMap_append, h1, h2, h3]
  | succ k ih =>
    intro fuel i c hok hfail hf
    obtain ⟨fuel, rfl⟩ : ∃ f, fuel = f + 1 := ⟨fuel - 1, by omega⟩
    have hw : s.Write i (PutUint64 ((c + 1) % 2 ^ 64)) = none := by
      have := hok 0 (by omega)
      simpa using this
    rw [writeCounterLoop_ok node t s fuel i c hw]
    have hrec := ih fuel (i + 1) ((c + 1) % 2 ^ 64) (by
      intro j hj
      have h1 := hok (j + 1) (by omega)
      have e1 : i + 1 + j = i + (j + 1) := by omega
      have e2 : ((c + 1) % 2 ^ 64 + j + 1) % 2 ^ 64 = (c + (j + 1) + 1) % 2 ^ 64 := by omega
      rw [e1, e2]; exact h1) (by
      have e1 : i + 1 + k = i + (k + 1) := by omega
      have e2 : ((c + 1) % 2 ^ 64 + k + 1) % 2 ^ 64 = (c + (k + 1) + 1) % 2 ^ 64 := by omega
      rw [e1, e2]; exact hfail) (by omega)
    simpa [Run.prepend, valuesWritten, connectToPeerCalls, connectCalls, newStreamCalls,
      writersStarted, readersStarted, List.filterMap_append] using hrec

/-! ## C3: one reconnect attempt -/

/-- C3: when the first `k` writes of `writeCounter` succeed and the next one fails, the loop
returns (for every number of iterations above `k`) after `k + 1` writes, having called
`connectToPeer` exactly once, for the remote peer of the stream with the remote address of
the stream as only address, and `node.Connect` exactly once; this does not depend on what the
call returns, and when the call returns an error no loop has been started. -/
theorem writeCounter_reconnects_once (node : Host) (t : Nat) (s : Stream) (k fuel : Nat)
    (err : Error)
    (hok : ∀ i, i < k → s.Write i (PutUint64 ((i + 1) % 2 ^ 64)) = none)
    (hfail : s.Write k (PutUint64 ((k + 1) % 2 ^ 64)) = some err)
    (hfuel : k < fuel) :
    (writeCounter node t s fuel).status = .returned ∧
    (valuesWritten (writeCounter node t s fuel).trace).length = k + 1 ∧
    connectToPeerCalls (writeCounter node t s fuel).trace
      = [⟨s.Conn.RemotePeer, [s.Conn.RemoteMultiaddr]⟩] ∧
    connectCalls (writeCounter node t s fuel).trace
      = [⟨s.Conn.RemotePeer, [s.Conn.RemoteMultiaddr]⟩] ∧
    ((connectToPeer node t ⟨s.Conn.RemotePeer, [s.Conn.RemoteMultiaddr]⟩).1 ≠ none →
      writersStarted (writeCounter node t s fuel).trace = [] ∧
      readersStarted (writeCounter node t s fuel).trace = []) := by
  have h := writeCounterLoop_fail node t s err k fuel 0 0
    (by intro j hj; simpa using hok j hj) (by simpa using hfail) hfuel
  obtain ⟨h1, h2, h3, h4, -, h6, h7⟩ := h
  refine ⟨h1, h2, h3, h4, ?_⟩
  intro hne
  have hc := (connectToPeer_observed node t (reconnectTarget s)).2.2.2.2.2 hne
  exact ⟨by rw [writeCounter, h6]; exact hc.2.1, by rw [writeCounter, h7]; exact hc.2.2⟩

/-- C3 on a stream whose third write fails, with a host that refuses the reconnect. -/
theorem writeCounter_reconnects_once_witness :
    (∀ i, i < 2 → (flakyStream 2 7).Write i (PutUint64 ((i + 1) % 2 ^ 64)) = none) ∧
    (flakyStream 2 7).Write 2 (PutUint64 ((2 + 1) % 2 ^ 64)) = some "stream reset" ∧
    2 < 5 ∧
    (writeCounter downHost 0 (flakyStream 2 7) 5).status = .returned ∧
    (valuesWritten (writeCounter downHost 0 (flakyStream 2 7) 5).trace).length = 2 + 1 ∧
    connectToPeerCalls (writeCounter downHost 0 (flakyStream 2 7) 5).trace
      = [⟨(flakyStream 2 7).Conn.RemotePeer, [(flakyStream 2 7).Conn.RemoteMultiaddr]⟩] ∧
    connectCalls (writeCounter downHost 0 (flakyStream 2 7) 5).trace
      = [⟨(flakyStream 2 7).Conn.RemotePeer, [(flakyStream 2 7).Conn.RemoteMultiaddr]⟩] ∧
    ((connectToPeer downHost 0
        ⟨(flakyStream 2 7).Conn.RemotePeer, [(flakyStream 2 7).Conn.RemoteMultiaddr]⟩).1 ≠ none →
      writersStarted (writeCounter downHost 0 (flakyStream 2 7) 5).trace = [] ∧
      readersStarted (writeCounter downHost 0 (flakyStream 2 7) 5).trace = []) :=
  have hok : ∀ i, i < 2 → (flakyStream 2 7).Write i (PutUint64 ((i + 1) % 2 ^ 64)) = none := by
    intro i hi
    simp only [flakyStream]
    rw [if_neg (by omega)]
  ⟨hok, rfl, by decide,
    writeCounter_reconnects_once downHost 0 (flakyStream 2 7) 2 5 "stream reset" hok rfl
      (by decide)⟩

/-! ## C5: the counter starts at zero and goes up by one -/

/-- C5: for every `k` with `1 ≤ k < 2 ^ 64`, when the writes before the `k`-th succeed and
at least `k` iterations are run, the `k`-th value `writeCounter` hands to `binary.Write` is
`k`; in particular the first is `1`.  The run depends on nothing but the stream and the
network: no counter is passed in. -/
theorem writeCounter_kth_value (node : Host) (t : Nat) (s : Stream) (fuel k : Nat)
    (hk1 : 1 ≤ k) (hk : k < 2 ^ 64)
    (hok : ∀ i, i + 1 < k → s.Write i (PutUint64 (i + 1)) = none)
    (hfuel : k ≤ fuel) :
    (valuesWritten (writeCounter node t s fuel).trace)[k - 1]? = some k := by
  have hlen := valuesWritten_loop_length node t s (k - 1) fuel 0 0 (by
    intro j hj
    have h1 := hok j (by omega)
    have e : (0 + j + 1) % 2 ^ 64 = j + 1 := by omega
    rw [e, Nat.zero_add]; exact h1) (by omega)
  have hget := List.getElem?_eq_getElem hlen
  have hv := valuesWritten_loop node t s fuel 0 0 (k - 1) _ hget
  rw [writeCounter, hget, hv]
  congr 1
  omega

/-- C5 at `k = 3` on a stream whose third write fails. -/
theorem writeCounter_kth_value_witness :
    1 ≤ 3 ∧ 3 < 2 ^ 64 ∧
    (∀ i, i + 1 < 3 → (flakyStream 2 7).Write i (PutUint64 (i + 1)) = none) ∧
    3 ≤ 4 ∧
    (valuesWritten (writeCounter upHost 0 (flakyStream 2 7) 4).trace)[3 - 1]? = some 3 :=
  have hok : ∀ i, i + 1 < 3 → (flakyStream 2 7).Write i (PutUint64 (i + 1)) = none := by
    intro i hi
    simp only [flakyStream]
    rw [if_neg (by omega)]
  ⟨by decide, by decide, hok, by decide,
    writeCounter_kth_value upHost 0 (flakyStream 2 7) 4 3 (by decide) (by decide) hok
      (by decide)⟩

/-! ## C4: the counter increases until it wraps -/

/-- C4, as the code has it: two consecutive values handed to `binary.Write` by one run of
`writeCounter`, the later of which is not beyond write number `2 ^ 64 - 1`, differ by one,
the later being the greater. -/
theorem writeCounter_increasing (node : Host) (t : Nat) (s : Stream) (fuel i a b : Nat)
    (hi : i + 2 < 2 ^ 64)
    (ha : (valuesWritten (writeCounter node t s fuel).trace)[i]? = some a)
    (hb : (valuesWritten (writeCounter node t s fuel).trace)[i + 1]? = some b) :
    a < b ∧ b = a + 1 := by
  have h1 := valuesWritten_loop node t s fuel 0 0 i a ha
  have h2 := valuesWritten_loop node t s fuel 0 0 (i + 1) b hb
  omega

/-- C4 as amended, on the first two values of a run. -/
theorem writeCounter_increasing_witness :
    0 + 2 < 2 ^ 64 ∧
    (valuesWritten (writeCounter upHost 0 (quietStream "s" 2) 3).trace)[0]? = some 1 ∧
    (valuesWritten (writeCounter upHost 0 (quietStream "s" 2) 3).trace)[0 + 1]? = some 2 ∧
    1 < 2 ∧ 2 = 1 + 1 :=
  ⟨by decide, rfl, rfl,
    writeCounter_increasing upHost 0 (quietStream "s" 2) 3 0 1 2 (by decide) rfl rfl⟩

/-- C4 fails as stated: on a stream whose writes all succeed, write number `2 ^ 64 - 1` of
`writeCounter` carries `2 ^ 64 - 1` and the next one carries `0`, which is not greater. -/
theorem writeCounter_wraps :
    (valuesWritten (writeCounter upHost 0 (quietStream "s" 2) (2 ^ 64)).trace)[2 ^ 64 - 2]?
      = some (2 ^ 64 - 1) ∧
    (valuesWritten (writeCounter upHost 0 (quietStream "s" 2) (2 ^ 64)).trace)[2 ^ 64 - 2 + 1]?
      = some 0 ∧
    ¬ (2 ^ 64 - 1 < 0) := by
  have hquiet : ∀ m j, j < m →
      (quietStream "s" 2).Write (0 + j) (PutUint64 ((0 + j + 1) % 2 ^ 64)) = none :=
    fun _ _ _ => rfl
  have hlen1 := valuesWritten_loop_length upHost 0 (quietStream "s" 2) (2 ^ 64 - 2) (2 ^ 64) 0 0
    (hquiet _) (by omega)
  have hlen2 := valuesWritten_loop_length upHost 0 (quietStream "s" 2) (2 ^ 64 - 2 + 1) (2 ^ 64)
    0 0 (hquiet _) (by omega)
  have hget1 := List.getElem?_eq_getElem hlen1
  have hget2 := List.getElem?_eq_getElem hlen2
  have hv1 := valuesWritten_loop upHost 0 (quietStream "s" 2) (2 ^ 64) 0 0 _ _ hget1
  have hv2 := valuesWritten_loop upHost 0 (quietStream "s" 2) (2 ^ 64) 0 0 _ _ hget2
  refine ⟨?_, ?_, by omega⟩
  · rw [writeCounter, hget1, hv1]; congr 1
  · rw [writeCounter, hget2, hv2]; congr 1

/-! ## C10: the bytes on the stream -/

/-- The bytes a loop puts on the stream are the encodings of the values it sent, in order,
and every value sent is below `2 ^ 64`. -/
theorem wireBytes_loop (node : Host) (t : Nat) (s : Stream) :
    ∀ (fuel i c : Nat),
      wireBytes (writeCounterLoop node t s fuel i c).trace
        = ((valuesSent (writeCounterLoop node t s fuel i c).trace).map PutUint64).flatten ∧
      ∀ v ∈ valuesSent (writeCounterLoop node t s fuel i c).trace, v < 2 ^ 64 := by
  intro fuel
  induction fuel with
  | zero => intro i c; simp [writeCounterLoop, wireBytes, valuesSent]
  | succ fuel ih =>
    intro i c
    cases hw : s.Write i (PutUint64 ((c + 1) % 2 ^ 64)) with
    | none =>
      rw [writeCounterLoop_ok node t s fuel i c hw]
      obtain ⟨h1, h2⟩ := ih (i + 1) ((c + 1) % 2 ^ 64)
      have hs : valuesSent ((writeCounterLoop node t s fuel (i + 1)
            ((c + 1) % 2 ^ 64)).prepend [.sleep, .binaryWrite s ((c + 1) % 2 ^ 64)
              (PutUint64 ((c + 1) % 2 ^ 64)) none]).trace
          = ((c + 1) % 2 ^ 64) ::
            valuesSent (writeCounterLoop node t s fuel (i + 1) ((c + 1) % 2 ^ 64)).trace := by
        simp [Run.prepend, valuesSent]
      have hb : wireBytes ((writeCounterLoop node t s fuel (i + 1)
            ((c + 1) % 2 ^ 64)).prepend [.sleep, .binaryWrite s ((c + 1) % 2 ^ 64)
              (PutUint64 ((c + 1) % 2 ^ 64)) none]).trace
          = PutUint64 ((c + 1) % 2 ^ 64) ++
            wireBytes (writeCounterLoop node t s fuel (i + 1) ((c + 1) % 2 ^ 64)).trace := by
        simp [Run.prepend, wireBytes]
      rw [hs, hb, h1]
      refine ⟨by simp, ?_⟩
      intro v hv
      rcases List.mem_cons.mp hv with hv | hv
      · rw [hv]; exact Nat.mod_lt _ (by decide)
      · exact h2 v hv
    | some err =>
      rw [writeCounterLoop_err node t s fuel i c err hw]
      obtain ⟨-, -, -, h4, h5, -⟩ := connectToPeer_observed node t (reconnectTarget s)
      simp only [valuesSent, wireBytes] at h4 h5
      have hs : valuesSent ([.sleep, .binaryWrite s ((c + 1) % 2 ^ 64)
            (PutUint64 ((c + 1) % 2 ^ 64)) (some err), .print (.errorWriting s.ID err),
            .print (.tryingToReconnect (reconnectTarget s))]
            ++ (connectToPeer node t (reconnectTarget s)).2) = [] := by
        simp [valuesSent, List.filterMap_append, h4]
      have hb : wireBytes ([.sleep, .binaryWrite s ((c + 1) % 2 ^ 64)
            (PutUint64 ((c + 1) % 2 ^ 64)) (some err), .print (.errorWriting s.ID err),
            .print (.tryingToReconnect (reconnectTarget s))]
            ++ (connectToPeer node t (reconnectTarget s)).2) = [] := by
        simp only [wireBytes, List.filterMap_append, List.flatten_append, h5]
        simp
      simp only [hs, hb]
      simp

/-- In the encodings of a list of values laid end to end, the `i`-th group of 8 bytes is the
encoding of the `i`-th value. -/
theorem flatten_PutUint64_group :
    ∀ (vs : List Nat) (i v : Nat), vs[i]? = some v →
      (((vs.map PutUint64).flatten).drop (8 * i)).take 8 = PutUint64 v := by
  intro vs
  induction vs with
  | nil => intro i v h; simp at h
  | cons a vs ih =>
    intro i v h
    cases i with
    | zero =>
      simp only [List.getElem?_cons_zero, Option.some.injEq] at h
      subst h
      simp [PutUint64]
    | succ i =>
      simp only [List.getElem?_cons_succ] at h
      have hlen : (PutUint64 a).length = 8 := rfl
      have e : 8 * (i + 1) = (PutUint64 a).length + 8 * i := by rw [hlen]; omega
      rw [List.map_cons, List.flatten_cons, e, List.drop_append]
      exact ih i v h

/-- The encodings of `n` values laid end to end are `8 * n` bytes. -/
theorem flatten_PutUint64_length (vs : List Nat) :
    ((vs.map PutUint64).flatten).length = 8 * vs.length := by
  induction vs with
  | nil => rfl
  | cons a vs ih =>
    have hlen : (PutUint64 a).length = 8 := rfl
    rw [List.map_cons, List.flatten_cons, List.length_append, ih, hlen, List.length_cons]
    omega

/-- A 64-bit value is the base-256 number spelt by its encoding. -/
theorem PutUint64_sum (v : Nat) (hv : v < 2 ^ 64) :
    v = Finset.sum (Finset.range 8) (fun j => (PutUint64 v).getD j 0 * 256 ^ (7 - j)) := by
  simp only [Finset.sum_range_succ, Finset.sum_range_zero, PutUint64, List.getD_cons_zero,
    List.getD_cons_succ, Nat.shiftRight_eq_div_pow]
  norm_num at hv ⊢
  omega

/-- C10: in every run of `writeCounter` the bytes put on the stream are exactly 8 for each
value sent, and the `i`-th group of 8 bytes `b0 .. b7` is the big-endian encoding of the
`i`-th value `v`: bytes below `256` with `v = b0 * 256 ^ 7 + ... + b7 * 256 ^ 0`. -/
theorem writeCounter_wire_format (node : Host) (t : Nat) (s : Stream) (fuel : Nat) :
    (wireBytes (writeCounter node t s fuel).trace).length
      = 8 * (valuesSent (writeCounter node t s fuel).trace).length ∧
    ∀ i v, (valuesSent (writeCounter node t s fuel).trace)[i]? = some v →
      ((wireBytes (writeCounter node t s fuel).trace).drop (8 * i)).take 8 = PutUint64 v ∧
      (∀ b ∈ ((wireBytes (writeCounter node t s fuel).trace).drop (8 * i)).take 8, b < 256) ∧
      v = Finset.sum (Finset.range 8) (fun j =>
        (((wireBytes (writeCounter node t s fuel).trace).drop (8 * i)).take 8).getD j 0
          * 256 ^ (7 - j)) := by
  obtain ⟨h1, h2⟩ := wireBytes_loop node t s fuel 0 0
  unfold writeCounter
  rw [h1]
  refine ⟨flatten_PutUint64_length _, ?_⟩
  intro i v hv
  have hg := flatten_PutUint64_group _ i v hv
  rw [hg]
  exact ⟨rfl, fun b hb => PutUint64_lt v b hb,
    PutUint64_sum v (h2 v (List.getElem?_mem hv))⟩

/-! ## C8: the inbound loop -/

/-- An iteration whose read succeeds reports the value and is followed by the rest of the
loop. -/
theorem readCounterLoop_ok (s : Stream) (fuel i v : Nat) (h : binaryRead s i = .ok v) :
    readCounterLoop s (fuel + 1) i =
      (readCounterLoop s fuel (i + 1)).prepend
        [.binaryRead s (.ok v), .print (.received v s.ID)] := by
  simp only [readCounterLoop, h]

/-- An iteration whose read fails reports the error and returns. -/
theorem readCounterLoop_err (s : Stream) (fuel i : Nat) (err : Error)
    (h : binaryRead s i = .error err) :
    readCounterLoop s (fuel + 1) i =
      ⟨[.binaryRead s (.error err), .print (.errorReading s.ID err)], .returned⟩ := by
  simp only [readCounterLoop, h]

/-- When the first `k` reads succeed, read number `k` fails and more than `k` iterations
are run, the loop has returned, having reported the `k` values read and one error, and
having called nothing that connects. -/
theorem readCounterLoop_fail (s : Stream) (err : Error) :
    ∀ (k fuel i : Nat),
      (∀ j, j < k → ∃ v, binaryRead s (i + j) = .ok v) →
      binaryRead s (i + k) = .error err →
      k < fuel →
      (readCounterLoop s fuel i).status = .returned ∧
      (valuesReported (readCounterLoop s fuel i).trace).map Except.ok
        = (List.range k).map (fun j => binaryRead s (i + j)) ∧
      readErrorsReported (readCounterLoop s fuel i).trace = 1 ∧
      connectToPeerCalls (readCounterLoop s fuel i).trace = [] ∧
      connectCalls (readCounterLoop s fuel i).trace = [] ∧
      writersStarted (readCounterLoop s fuel i).trace = [] ∧
      readersStarted (readCounterLoop s fuel i).trace = [] := by
  intro k
  induction k with
  | zero =>
    intro fuel i _ hfail hf
    obtain ⟨fuel, rfl⟩ : ∃ f, fuel = f + 1 := ⟨fuel - 1, by omega⟩
    rw [readCounterLoop_err s fuel i err (by simpa using hfail)]
    simp [valuesReported, readErrorsReported, connectToPeerCalls, connectCalls, writersStarted,
      readersStarted]
  | succ k ih =>
    intro fuel i hok hfail hf
    obtain ⟨fuel, rfl⟩ : ∃ f, fuel = f + 1 := ⟨fuel - 1, by omega⟩
    obtain ⟨v, hv⟩ := hok 0 (by omega)
    rw [Nat.add_zero] at hv
    rw [readCounterLoop_ok s fuel i v hv]
    have hrec := ih fuel (i + 1) (by
      intro j hj
      have e1 : i + 1 + j = i + (j + 1) := by omega
      rw [e1]; exact hok (j + 1) (by omega)) (by
      have e1 : i + 1 + k = i + (k + 1) := by omega
      rw [e1]; exact hfail) (by omega)
    obtain ⟨r1, r2, r3, r4, r5, r6, r7⟩ := hrec
    refine ⟨r1, ?_, ?_, ?_, ?_, ?_, ?_⟩
    · have e : valuesReported ((readCounterLoop s fuel (i + 1)).prepend
          [.binaryRead s (.ok v), .print (.received v s.ID)]).trace
          = v :: valuesReported (readCounterLoop s fuel (i + 1)).trace := by
        simp [Run.prepend, valuesReported]
      have e0 : binaryRead s (i + 0) = .ok v := hv
      rw [e, List.map_cons, r2, List.range_succ_eq_map, List.map_cons, List.map_map, e0]
      congr 1
      apply List.map_congr_left
      intro j _
      simp only [Function.comp_apply]
      congr 1
      omega
    · simpa [Run.prepend, readErrorsReported, List.filterMap_append] using r3
    · simpa [Run.prepend, connectToPeerCalls, List.filterMap_append] using r4
    · simpa [Run.prepend, connectCalls, List.filterMap_append] using r5
    · simpa [Run.prepend, writersStarted, List.filterMap_append] using r6
    · simpa [Run.prepend, readersStarted, List.filterMap_append] using r7

/-- C8: when the first `k` reads of `readCounter` succeed and the next one fails, the loop
returns (for every number of iterations above `k`) having reported exactly the `k` values
decoded, in order, and none for the failed read, one read error, and having made no call of
`connectToPeer` or `node.Connect` and started no loop. -/
theorem readCounter_stops_at_first_failure (s : Stream) (k fuel : Nat) (err : Error)
    (hok : ∀ i, i < k → ∃ bs, s.ReadFull i = .ok bs)
    (hfail : s.ReadFull k = .error err)
    (hfuel : k < fuel) :
    (readCounter s fuel).status = .returned ∧
    (valuesReported (readCounter s fuel).trace).map Except.ok
      = (List.range k).map (fun i => binaryRead s i) ∧
    (valuesReported (readCounter s fuel).trace).length = k ∧
    readErrorsReported (readCounter s fuel).trace = 1 ∧
    connectToPeerCalls (readCounter s fuel).trace = [] ∧
    connectCalls (readCounter s fuel).trace = [] ∧
    writersStarted (readCounter s fuel).trace = [] ∧
    readersStarted (readCounter s fuel).trace = [] := by
  have h := readCounterLoop_fail s err k fuel 0
    (by
      intro j hj
      obtain ⟨bs, hbs⟩ := hok j hj
      exact ⟨Uint64 bs, by simp only [binaryRead, Nat.zero_add, hbs]⟩)
    (by simp only [binaryRead, Nat.zero_add, hfail]) hfuel
  simp only [Nat.zero_add] at h
  obtain ⟨h1, h2, h3, h4, h5, h6, h7⟩ := h
  refine ⟨h1, h2, ?_, h3, h4, h5, h6, h7⟩
  have := congrArg List.length h2
  simpa using this

/-- C8 on a stream that delivers the counters `1` and `2`, then three more bytes, and is
closed: the third read finds fewer than 8 bytes. -/
theorem readCounter_stops_at_first_failure_witness :
    (∀ i, i < 2 → ∃ bs,
      (streamOf "r" ⟨2, "/ip4/127.0.0.1/tcp/4001"⟩
        (PutUint64 1 ++ PutUint64 2 ++ [0, 0, 0])).ReadFull i = .ok bs) ∧
    (streamOf "r" ⟨2, "/ip4/127.0.0.1/tcp/4001"⟩
      (PutUint64 1 ++ PutUint64 2 ++ [0, 0, 0])).ReadFull 2 = .error "unexpected EOF" ∧
    2 < 3 ∧
    valuesReported (readCounter (streamOf "r" ⟨2, "/ip4/127.0.0.1/tcp/4001"⟩
      (PutUint64 1 ++ PutUint64 2 ++ [0, 0, 0])) 3).trace = [1, 2] ∧
    connectToPeerCalls (readCounter (streamOf "r" ⟨2, "/ip4/127.0.0.1/tcp/4001"⟩
      (PutUint64 1 ++ PutUint64 2 ++ [0, 0, 0])) 3).trace = [] ∧
    (readCounter (streamOf "r" ⟨2, "/ip4/127.0.0.1/tcp/4001"⟩
      (PutUint64 1 ++ PutUint64 2 ++ [0, 0, 0])) 3).status = .returned :=
  have hok : ∀ i, i < 2 → ∃ bs,
      (streamOf "r" ⟨2, "/ip4/127.0.0.1/tcp/4001"⟩
        (PutUint64 1 ++ PutUint64 2 ++ [0, 0, 0])).ReadFull i = .ok bs := by
    intro i hi
    match i, hi with
    | 0, _ => exact ⟨_, rfl⟩
    | 1, _ => exact ⟨_, rfl⟩
  have h := readCounter_stops_at_first_failure
    (streamOf "r" ⟨2, "/ip4/127.0.0.1/tcp/4001"⟩ (PutUint64 1 ++ PutUint64 2 ++ [0, 0, 0]))
    2 3 "unexpected EOF" hok rfl (by decide)
  ⟨hok, rfl, by decide, rfl, h.2.2.2.2.1, h.1⟩

/-- What `io.ReadFull` answers on a closed stream: the first `inbound.length / 8` reads
succeed and the next one fails. -/
theorem readFullOf_spec (inbound : List Nat) :
    (∀ i, i < inbound.length / 8 → readFullOf inbound i = .ok ((inbound.drop (8 * i)).take 8)) ∧
    readFullOf inbound (inbound.length / 8)
      = .error (if inbound.length % 8 = 0 then "EOF" else "unexpected EOF") := by
  constructor
  · intro i hi
    simp only [readFullOf, List.length_drop]
    rw [if_pos (by omega)]
  · simp only [readFullOf, List.length_drop]
    rw [if_neg (by omega)]
    by_cases h : inbound.length % 8 = 0
    · rw [if_pos (by omega), if_pos h]
    · rw [if_neg (by omega), if_neg h]

/-- On a stream that delivers `inbound` and is closed, `readCounter` returns once it has
reported one value for every full group of 8 bytes, without connecting. -/
theorem readCounter_on_closed_stream (id : String) (remote : NetConn) (inbound : List Nat)
    (fuel : Nat) (hfuel : inbound.length / 8 < fuel) :
    (readCounter (streamOf id remote inbound) fuel).status = .returned ∧
    (valuesReported (readCounter (streamOf id remote inbound) fuel).trace).length
      = inbound.length / 8 ∧
    connectToPeerCalls (readCounter (streamOf id remote inbound) fuel).trace = [] := by
  obtain ⟨hok, hfail⟩ := readFullOf_spec inbound
  have h := readCounterLoop_fail (streamOf id remote inbound)
    (if inbound.length % 8 = 0 then "EOF" else "unexpected EOF") (inbound.length / 8) fuel 0
    (by
      intro j hj
      refine ⟨Uint64 ((inbound.drop (8 * j)).take 8), ?_⟩
      simp only [binaryRead, Nat.zero_add, streamOf, hok j hj])
    (by simp only [binaryRead, Nat.zero_add, streamOf, hfail]) hfuel
  obtain ⟨h1, h2, -, h4, -⟩ := h
  refine ⟨h1, ?_, h4⟩
  have := congrArg List.length h2
  simpa using this

/-! ## C9: sessions started by the discovery path -/

/-- What a successful `connectToPeer` contributes to the observations of a trace. -/
theorem connectToPeer_succeeds (node : Host) (h : Succeeds node) (t : Nat) (info : AddrInfo) :
    streamsOpened (connectToPeer node t info).2 = [info.ID] ∧
    (writersStarted (connectToPeer node t info).2).length = 1 ∧
    (readersStarted (connectToPeer node t info).2).length = 1 := by
  obtain ⟨s, hs⟩ := h.2 t info.ID
  simp [connectToPeer, h.1 t info, hs, streamsOpened, writersStarted, readersStarted]

/-- C9, as the code has it: when every connect and stream open succeeds, the discovery path
calls `connectToPeer` once for every notification whose identity is not the local one, in
order, and each call opens one stream and starts one outbound and one inbound loop; so the
number of sessions started for a remote peer is the number of notifications that name it. -/
theorem deliver_sessions (node : Host) (n : discoveryNotifee) (h : Succeeds node) :
    ∀ (infos : List AddrInfo) (t : Nat),
      connectToPeerCalls (deliver node n t infos)
        = infos.filter (fun info => decide (info.ID ≠ n.h.ID)) ∧
      streamsOpened (deliver node n t infos)
        = (infos.filter (fun info => decide (info.ID ≠ n.h.ID))).map (fun info => info.ID) ∧
      (writersStarted (deliver node n t infos)).length
        = (infos.filter (fun info => decide (info.ID ≠ n.h.ID))).length ∧
      (readersStarted (deliver node n t infos)).length
        = (infos.filter (fun info => decide (info.ID ≠ n.h.ID))).length ∧
      ∀ p, p ≠ n.h.ID →
        (streamsOpened (deliver node n t infos)).count p
          = (infos.map (fun info => info.ID)).count p := by
  intro infos
  induction infos with
  | nil =>
    intro t
    simp [deliver, connectToPeerCalls, streamsOpened, writersStarted, readersStarted]
  | cons info infos ih =>
    intro t
    obtain ⟨i1, i2, i3, i4, i5⟩ := ih (t + 1)
    obtain ⟨c1, -⟩ := connectToPeer_observed node t info
    obtain ⟨c2, c3, c4⟩ := connectToPeer_succeeds node h t info
    simp only [connectToPeerCalls, streamsOpened, writersStarted, readersStarted]
      at i1 i2 i3 i4 i5 c1 c2 c3 c4
    by_cases hself : info.ID = n.h.ID
    · refine ⟨?_, ?_, ?_, ?_, ?_⟩
      · simp [deliver, HandlePeerFound, hself, connectToPeerCalls, List.filterMap_append, i1]
      · simp [deliver, HandlePeerFound, hself, streamsOpened, List.filterMap_append, i2]
      · simp [deliver, HandlePeerFound, hself, writersStarted, List.filterMap_append, i3]
      · simp [deliver, HandlePeerFound, hself, readersStarted, List.filterMap_append, i4]
      · intro p hp
        have hne : ¬ n.h.ID = p := fun e => hp e.symm
        have := i5 p hp
        simp [deliver, HandlePeerFound, hself, streamsOpened, List.filterMap_append,
          List.count_cons, hne] at this ⊢
        exact this
    · refine ⟨?_, ?_, ?_, ?_, ?_⟩
      · simp [deliver, HandlePeerFound, hself, connectToPeerCalls, List.filterMap_append, i1,
          c1]
      · simp [deliver, HandlePeerFound, hself, streamsOpened, List.filterMap_append, i2, c2]
      · simp [deliver, HandlePeerFound, hself, writersStarted, List.filterMap_append, i3, c3]
        omega
      · simp [deliver, HandlePeerFound, hself, readersStarted, List.filterMap_append, i4, c4]
        omega
      · intro p hp
        have := i5 p hp
        simp [deliver, HandlePeerFound, hself, streamsOpened, List.filterMap_append,
          List.count_cons, c2] at this ⊢
        rw [this]

/-- Every `Connect` and `NewStream` of `upHost` succeeds. -/
theorem upHost_succeeds : Succeeds upHost :=
  ⟨fun _ _ => rfl, fun _ _ => ⟨_, rfl⟩⟩

/-- C9 as amended, on three notifications: peer `2`, the local peer `1`, peer `2` again. -/
theorem deliver_sessions_witness :
    Succeeds upHost ∧
    connectToPeerCalls (deliver upHost ⟨upHost⟩ 0
        [⟨2, ["/ip4/127.0.0.1/tcp/4001"]⟩, ⟨1, ["/ip4/127.0.0.1/tcp/4000"]⟩,
         ⟨2, ["/ip4/127.0.0.1/tcp/4001"]⟩])
      = [⟨2, ["/ip4/127.0.0.1/tcp/4001"]⟩, ⟨2, ["/ip4/127.0.0.1/tcp/4001"]⟩] :=
  ⟨upHost_succeeds,
    (deliver_sessions upHost ⟨upHost⟩ upHost_succeeds
      [⟨2, ["/ip4/127.0.0.1/tcp/4001"]⟩, ⟨1, ["/ip4/127.0.0.1/tcp/4000"]⟩,
       ⟨2, ["/ip4/127.0.0.1/tcp/4001"]⟩] 0).1⟩

/-- C9 fails as stated: with every connect and stream open succeeding, two notifications
for peer `2` make the discovery path connect to peer `2` twice, open two streams to it and
start two outbound and two inbound loops. -/
theorem deliver_duplicate_sessions :
    Succeeds upHost ∧
    connectToPeerCalls (deliver upHost ⟨upHost⟩ 0
        [⟨2, ["/ip4/127.0.0.1/tcp/4001"]⟩, ⟨2, ["/ip4/127.0.0.1/tcp/4001"]⟩])
      = [⟨2, ["/ip4/127.0.0.1/tcp/4001"]⟩, ⟨2, ["/ip4/127.0.0.1/tcp/4001"]⟩] ∧
    (streamsOpened (deliver upHost ⟨upHost⟩ 0
        [⟨2, ["/ip4/127.0.0.1/tcp/4001"]⟩, ⟨2, ["/ip4/127.0.0.1/tcp/4001"]⟩])).count 2 = 2 ∧
    (writersStarted (deliver upHost ⟨upHost⟩ 0
        [⟨2, ["/ip4/127.0.0.1/tcp/4001"]⟩, ⟨2, ["/ip4/127.0.0.1/tcp/4001"]⟩])).length = 2 ∧
    (readersStarted (deliver upHost ⟨upHost⟩ 0
        [⟨2, ["/ip4/127.0.0.1/tcp/4001"]⟩, ⟨2, ["/ip4/127.0.0.1/tcp/4001"]⟩])).length = 2 :=
  ⟨upHost_succeeds, rfl, rfl, rfl, rfl⟩

/-! ## C7: which errors abort the process -/

/-- The outbound loop never panics. -/
theorem writeCounterLoop_no_panic (node : Host) (t : Nat) (s : Stream) :
    ∀ (fuel i c : Nat) (err : Error),
      (writeCounterLoop node t s fuel i c).status ≠ .panicked err := by
  intro fuel
  induction fuel with
  | zero => intro i c err; simp [writeCounterLoop]
  | succ fuel ih =>
    intro i c err
    cases hw : s.Write i (PutUint64 ((c + 1) % 2 ^ 64)) with
    | none =>
      rw [writeCounterLoop_ok node t s fuel i c hw]
      exact ih (i + 1) ((c + 1) % 2 ^ 64) err
    | some e =>
      rw [writeCounterLoop_err node t s fuel i c e hw]
      simp

/-- The inbound loop never panics. -/
theorem readCounterLoop_no_panic (s : Stream) :
    ∀ (fuel i : Nat) (err : Error), (readCounterLoop s fuel i).status ≠ .panicked err := by
  intro fuel
  induction fuel with
  | zero => intro i err; simp [readCounterLoop]
  | succ fuel ih =>
    intro i err
    cases hr : binaryRead s i with
    | error e =>
      rw [readCounterLoop_err s fuel i e hr]
      simp
    | ok v =>
      rw [readCounterLoop_ok s fuel i v hr]
      exact ih (i + 1) err

/-- C7, as the code has it: `main` panics with `err` exactly when node creation fails with
`err`, or the node is created, the flag `-peer-address` is not empty and parsing it fails
with `err` (in `multiaddr.NewMultiaddr` or in `peer.AddrInfoFromP2pAddr`); otherwise it
reaches the wait for a signal, whatever `connectToPeer` returns; and neither
`writeCounter`, `readCounter` nor `HandlePeerFound` panics, whatever the connect,
stream-open, read and write steps return. -/
theorem main_panics_iff (lib : Lib) (peerAddr : String) (t : Nat) (err : Error) :
    ((main lib peerAddr t).status = .panicked err ↔
      (lib.New = .error err ∨
        ((∃ node, lib.New = .ok node) ∧ peerAddr ≠ "" ∧
          (lib.NewMultiaddr peerAddr = .error err ∨
            ∃ peerMA, lib.NewMultiaddr peerAddr = .ok peerMA ∧
              lib.AddrInfoFromP2pAddr peerMA = .error err)))) ∧
    ((main lib peerAddr t).status = .running ∨
      ∃ e, (main lib peerAddr t).status = .panicked e) ∧
    (∀ (node : Host) (u : Nat) (s : Stream) (fuel : Nat),
      (writeCounter node u s fuel).status ≠ .panicked err ∧
      (readCounter s fuel).status ≠ .panicked err) ∧
    (∀ (node : Host) (u : Nat) (n : discoveryNotifee) (info : AddrInfo),
      (HandlePeerFound node u n info).status = .returned) := by
  refine ⟨?_, ?_, ?_, ?_⟩
  · unfold main
    cases hn : lib.New with
    | error e => simp
    | ok node =>
      by_cases hp : peerAddr = ""
      · simp [hp]
      · cases hm : lib.NewMultiaddr peerAddr with
        | error e => simp [hp]
        | ok peerMA =>
          cases ha : lib.AddrInfoFromP2pAddr peerMA with
          | error e => simp [hp, ha]
          | ok info => simp [hp, ha]
  · unfold main
    cases hn : lib.New with
    | error e => simp
    | ok node =>
      by_cases hp : peerAddr = ""
      · simp [hp]
      · cases hm : lib.NewMultiaddr peerAddr with
        | error e => simp [hp]
        | ok peerMA =>
          cases ha : lib.AddrInfoFromP2pAddr peerMA with
          | error e => simp [hp, ha]
          | ok info => simp [hp, ha]
  · intro node u s fuel
    exact ⟨writeCounterLoop_no_panic node u s fuel 0 0 err, readCounterLoop_no_panic s fuel 0 err⟩
  · intro node u n info
    unfold HandlePeerFound
    split <;> rfl

/-- C7 fails as stated: the node is created, the flag `-peer-address` is `garbage`,
`multiaddr.NewMultiaddr` rejects it, and `main` panics with that error. -/
theorem main_panics_on_bad_flag :
    exampleLib.New = .ok upHost ∧
    exampleLib.NewMultiaddr "garbage" = .error "must begin with /" ∧
    (main exampleLib "garbage" 0).status = .panicked "must begin with /" := by
  exact ⟨rfl, rfl, rfl⟩

end P2PCounter
